import Mathlib

/-!
Verification of the duplicate/similarity detection engine of
`scripts/pattern_similarity_checker.py`.

The Python source is embedded shallowly: every pure function of the script
(`slugify` aside, which no claim mentions) is translated into a computable
Lean definition over `String`, `List`, `Finset String`, `ℚ` (for the float
scores, which on the inputs in question are exact decimal fractions) and
`ℝ` (only for the square root in `cosine_similarity`).  File I/O and front
matter parsing (`parse_front_matter`, `Path.glob`) are external
collaborators; they are modelled at the call boundary (parsed documents or
an `Except` value are *inputs* of the embedded functions).
-/

namespace PatternSim

/-! ## Python string primitives

Python string methods used by the script, modelled character-wise on the
underlying character list (`String.data`).  Python's `str.lower`/`str.strip`
are modelled with ASCII case folding and Unicode whitespace trimming, which
agree with Python on all inputs the script manipulates.
-/

/-- Python `s.strip()`: remove leading and trailing whitespace. -/
def pyStrip (s : String) : String :=
  ⟨((s.data.dropWhile Char.isWhitespace).reverse.dropWhile Char.isWhitespace).reverse⟩

/-- Python `s.lower()`: character-wise lower casing. -/
def pyLower (s : String) : String := ⟨s.data.map Char.toLower⟩

/-- Python `s.startswith(p)`. -/
def pyStartsWith (s p : String) : Bool := p.data.isPrefixOf s.data

/-- Python `s[n:]`. -/
def pyDrop (s : String) (n : Nat) : String := ⟨s.data.drop n⟩

/-- Substring containment on character lists (Python's `sub in s`). -/
def containsSub (pat : List Char) : List Char → Bool
  | [] => pat.isEmpty
  | c :: rest => pat.isPrefixOf (c :: rest) || containsSub pat rest

/-- Python `sub in s` for strings. -/
def pyContains (s sub : String) : Bool := containsSub sub.data s.data

/-! ## `levenshtein_distance`

The source computes the edit distance by dynamic programming over rows
(`previous_row` / `current_row`), swapping the arguments first so that the
first string is the longer one.  `buildRow` is the inner `for j, c2 in
enumerate(s2)` loop, `levLoop` the outer `for i, c1 in enumerate(s1)` loop.
-/

/-- Inner loop of the dynamic program: given the current character `c1` of
`s1`, the remaining characters of `s2`, the corresponding remaining entries
of `previous_row` and the entry of `current_row` just written, produce the
remaining entries of `current_row`.  Each new entry is
`min(insertions, deletions, substitutions)` exactly as in the source. -/
def buildRow (c1 : Char) : List Char → List Nat → Nat → List Nat
  | c2 :: cs, p0 :: p1 :: ps, last =>
    let cur := min (p1 + 1) (min (last + 1) (p0 + (if c1 = c2 then 0 else 1)))
    cur :: buildRow c1 cs (p1 :: ps) cur
  | _, _, _ => []

/-- Outer loop of the dynamic program: fold over the characters of `s1`,
carrying `previous_row` and the row index `i`; each iteration starts the
new row with `i + 1` and finishes it with `buildRow`. -/
def levLoop (s2 : List Char) : List Char → List Nat → Nat → List Nat
  | [], prev, _ => prev
  | c1 :: rest, prev, i => levLoop s2 rest ((i + 1) :: buildRow c1 s2 prev (i + 1)) (i + 1)

/-- Body of `levenshtein_distance` after its initial argument swap:
return `len(s1)` when `s2` is empty, otherwise run the row dynamic
program starting from `previous_row = range(len(s2) + 1)` and return the
last entry of the final row (`previous_row[-1]`). -/
def levCore (s1 s2 : List Char) : Nat :=
  if s2.length = 0 then s1.length
  else (levLoop s2 s1 (List.range (s2.length + 1)) 0).getLastD 0

/-- `levenshtein_distance(s1, s2)` from the source: the recursive swap
`if len(s1) < len(s2): return levenshtein_distance(s2, s1)` fires at most
once, so it is unfolded into a single conditional around `levCore`. -/
def levenshtein_distance (s1 s2 : List Char) : Nat :=
  if s1.length < s2.length then levCore s2 s1 else levCore s1 s2

/-- Reference recursion for Levenshtein distance (first-character
recurrence), used to reason about the dynamic program. -/
def levRec : List Char → List Char → Nat
  | [], ys => ys.length
  | _ :: xs, [] => xs.length + 1
  | x :: xs, y :: ys =>
    min (levRec (x :: xs) ys + 1)
      (min (levRec xs (y :: ys) + 1) (levRec xs ys + (if x = y then 0 else 1)))
termination_by a b => a.length + b.length

lemma levRec_nil_right : ∀ xs : List Char, levRec xs [] = xs.length
  | [] => by simp [levRec]
  | _ :: _ => by simp [levRec]

lemma levRec_symm : ∀ a b : List Char, levRec a b = levRec b a
  | [], b => by rw [levRec_nil_right]; cases b <;> simp [levRec]
  | _ :: _, [] => by rw [levRec_nil_right]; simp [levRec]
  | x :: xs, y :: ys => by
    have h1 := levRec_symm (x :: xs) ys
    have h2 := levRec_symm xs (y :: ys)
    have h3 := levRec_symm xs ys
    have hcost : (if y = x then 0 else 1) = (if x = y then 0 else 1) := by
      by_cases hxy : x = y
      · simp [hxy]
      · simp [hxy, Ne.symm hxy]
    simp only [levRec, hcost]
    omega
termination_by a b => a.length + b.length

lemma levRec_le_max : ∀ a b : List Char, levRec a b ≤ max a.length b.length
  | [], b => by simp [levRec]
  | _ :: xs, [] => by simp [levRec]
  | x :: xs, y :: ys => by
    have h3 := levRec_le_max xs ys
    simp only [levRec, List.length_cons]
    by_cases hxy : x = y
    · simp only [if_pos hxy]; omega
    · simp only [if_neg hxy]; omega
termination_by a b => a.length + b.length

lemma levRec_self : ∀ a : List Char, levRec a a = 0
  | [] => by simp [levRec]
  | x :: xs => by
    have h := levRec_self xs
    simp only [levRec, eq_self_iff_true, if_true]
    omega

/-- The row of reference distances from `r1` to every reversed prefix
extending `racc` by characters of `cs`. -/
def rowFor (r1 : List Char) (racc : List Char) : List Char → List Nat
  | [] => [levRec r1 racc]
  | c :: cs => levRec r1 racc :: rowFor r1 (c :: racc) cs

lemma rowFor_head (r1 racc cs : List Char) :
    rowFor r1 racc cs = levRec r1 racc :: (rowFor r1 racc cs).tail := by
  cases cs <;> rfl

lemma rowFor_cons_eq (r1 racc : List Char) (c2 : Char) (cs : List Char) :
    rowFor r1 racc (c2 :: cs) =
      levRec r1 racc :: levRec r1 (c2 :: racc) :: (rowFor r1 (c2 :: racc) cs).tail := by
  cases cs <;> rfl

lemma buildRow_eq (c1 : Char) (r1 : List Char) :
    ∀ cs racc : List Char,
      buildRow c1 cs (rowFor r1 racc cs) (levRec (c1 :: r1) racc) =
        (rowFor (c1 :: r1) racc cs).tail
  | [], racc => rfl
  | c2 :: cs, racc => by
    have ih := buildRow_eq c1 r1 cs (c2 :: racc)
    have hcur : min (levRec r1 (c2 :: racc) + 1)
        (min (levRec (c1 :: r1) racc + 1)
          (levRec r1 racc + (if c1 = c2 then 0 else 1))) =
        levRec (c1 :: r1) (c2 :: racc) := by
      have hunf : levRec (c1 :: r1) (c2 :: racc) =
          min (levRec (c1 :: r1) racc + 1)
            (min (levRec r1 (c2 :: racc) + 1)
              (levRec r1 racc + (if c1 = c2 then 0 else 1))) := by
        simp [levRec]
      rw [hunf]; omega
    show buildRow c1 (c2 :: cs) (rowFor r1 racc (c2 :: cs)) (levRec (c1 :: r1) racc) =
      rowFor (c1 :: r1) (c2 :: racc) cs
    rw [rowFor_cons_eq r1 racc c2 cs]
    show (min (levRec r1 (c2 :: racc) + 1)
        (min (levRec (c1 :: r1) racc + 1)
          (levRec r1 racc + (if c1 = c2 then 0 else 1)))) ::
      buildRow c1 cs (levRec r1 (c2 :: racc) :: (rowFor r1 (c2 :: racc) cs).tail)
        (min (levRec r1 (c2 :: racc) + 1)
          (min (levRec (c1 :: r1) racc + 1)
            (levRec r1 racc + (if c1 = c2 then 0 else 1)))) =
      rowFor (c1 :: r1) (c2 :: racc) cs
    rw [hcur, ← rowFor_head r1 (c2 :: racc) cs, ih, ← rowFor_head]

lemma levLoop_eq (s2 : List Char) :
    ∀ rest r1 : List Char,
      levLoop s2 rest (rowFor r1 [] s2) r1.length =
        rowFor (rest.reverse ++ r1) [] s2
  | [], r1 => rfl
  | c1 :: rest, r1 => by
    have hlev : levRec (c1 :: r1) ([] : List Char) = r1.length + 1 := by
      simp [levRec]
    have hrow : (r1.length + 1) :: buildRow c1 s2 (rowFor r1 [] s2) (r1.length + 1) =
        rowFor (c1 :: r1) [] s2 := by
      rw [← hlev, buildRow_eq c1 r1 s2 [], ← rowFor_head]
    rw [show levLoop s2 (c1 :: rest) (rowFor r1 [] s2) r1.length =
      levLoop s2 rest
        ((r1.length + 1) :: buildRow c1 s2 (rowFor r1 [] s2) (r1.length + 1))
        (r1.length + 1) from rfl]
    rw [hrow, show r1.length + 1 = (c1 :: r1).length from rfl,
      levLoop_eq s2 rest (c1 :: r1)]
    simp

lemma rowFor_nil_left :
    ∀ cs racc : List Char,
      rowFor [] racc cs = List.range' racc.length (cs.length + 1)
  | [], racc => by simp [rowFor, levRec, List.range']
  | c :: cs, racc => by
    rw [show rowFor [] racc (c :: cs) = levRec [] racc :: rowFor [] (c :: racc) cs from rfl,
      rowFor_nil_left cs (c :: racc)]
    have hl : levRec [] racc = racc.length := by simp [levRec]
    rw [hl, List.length_cons]
    rfl

lemma range_eq_rowFor (s2 : List Char) :
    List.range (s2.length + 1) = rowFor [] [] s2 := by
  rw [rowFor_nil_left s2 [], List.range_eq_range']
  rfl

lemma rowFor_getLastD (r1 : List Char) :
    ∀ (cs racc : List Char) (d : Nat),
      (rowFor r1 racc cs).getLastD d = levRec r1 (cs.reverse ++ racc)
  | [], racc, d => rfl
  | c :: cs, racc, d => by
    rw [rowFor, List.getLastD_cons, rowFor_getLastD r1 cs (c :: racc)]
    simp

lemma levCore_eq (s1 s2 : List Char) :
    levCore s1 s2 = levRec s1.reverse s2.reverse := by
  rw [levCore]
  by_cases h2 : s2.length = 0
  · rw [if_pos h2]
    rw [List.length_eq_zero] at h2
    subst h2
    rw [show (([] : List Char)).reverse = [] from rfl, levRec_nil_right]
    simp
  · rw [if_neg h2, range_eq_rowFor,
      show (0 : Nat) = ([] : List Char).length from rfl,
      levLoop_eq s2 s1 [], rowFor_getLastD]
    simp

/-- The row dynamic program of the source computes the reference
Levenshtein recursion (on reversed inputs; the distance of the reversed
lists is what the prefix-indexed rows accumulate). -/
theorem levenshtein_distance_eq (s1 s2 : List Char) :
    levenshtein_distance s1 s2 = levRec s1.reverse s2.reverse := by
  rw [levenshtein_distance]
  by_cases h : s1.length < s2.length
  · rw [if_pos h, levCore_eq s2 s1, levRec_symm]
  · rw [if_neg h, levCore_eq s1 s2]

lemma levenshtein_distance_symm (s1 s2 : List Char) :
    levenshtein_distance s1 s2 = levenshtein_distance s2 s1 := by
  rw [levenshtein_distance_eq, levenshtein_distance_eq, levRec_symm]

lemma levenshtein_distance_le_max (s1 s2 : List Char) :
    levenshtein_distance s1 s2 ≤ max s1.length s2.length := by
  rw [levenshtein_distance_eq]
  have := levRec_le_max s1.reverse s2.reverse
  simpa using this

lemma levenshtein_distance_self (s : List Char) :
    levenshtein_distance s s = 0 := by
  rw [levenshtein_distance_eq, levRec_self]

/-! ## Similarity metrics

`jaccard_similarity`, `cosine_similarity` and `string_similarity` from the
source.  Python sets of strings become `Finset String`; float results
become `ℚ` (all values are exact decimal/rational fractions), except the
square roots in `cosine_similarity`, which force `ℝ`. -/

/-- `jaccard_similarity(set1, set2)`: `0.0` when either set is falsy
(empty), otherwise `|A ∩ B| / |A ∪ B|` guarded by `union > 0`. -/
def jaccard_similarity (set1 set2 : Finset String) : ℚ :=
  if set1 = ∅ ∨ set2 = ∅ then 0
  else
    let intersection := (set1 ∩ set2).card
    let union := (set1 ∪ set2).card
    if 0 < union then (intersection : ℚ) / (union : ℚ) else 0

/-- `cosine_similarity(set1, set2)`: the sets are treated as binary
vectors, so the similarity is `|A ∩ B| / (sqrt |A| * sqrt |B|)`. -/
noncomputable def cosine_similarity (set1 set2 : Finset String) : ℝ :=
  if set1 = ∅ ∨ set2 = ∅ then 0
  else
    let intersection := (set1 ∩ set2).card
    let magnitude := Real.sqrt (set1.card : ℝ) * Real.sqrt (set2.card : ℝ)
    if 0 < magnitude then (intersection : ℝ) / magnitude else 0

/-- `string_similarity(s1, s2)`: `0.0` when either string is falsy
(empty); otherwise `1 - distance / max_len` on the lower-cased strings.
The `max_len == 0` branch of the source is kept although it is
unreachable (both strings are non-empty there). -/
def string_similarity (s1 s2 : String) : ℚ :=
  if s1 = "" ∨ s2 = "" then 0
  else
    let max_len := max s1.length s2.length
    if max_len = 0 then 1
    else 1 - (levenshtein_distance (pyLower s1).data (pyLower s2).data : ℚ) / (max_len : ℚ)

/-! ## Tokenizer -/

/-- The stop-word set of `tokenize`, verbatim from the source. -/
def stop_words : List String :=
  ["a", "an", "the", "and", "or", "but", "in", "on", "at", "to", "for",
   "of", "with", "by", "from", "as", "is", "was", "are", "were", "be",
   "been", "being", "have", "has", "had", "do", "does", "did", "will",
   "would", "could", "should", "may", "might", "must", "can", "this",
   "that", "these", "those", "it", "its", "they", "them", "their",
   "what", "which", "who", "whom", "when", "where", "why", "how"]

/-- A regex `\w` word character (alphanumeric or underscore). -/
def isWordChar (c : Char) : Bool := c.isAlphanum || c = '_'

/-- Scanner for `re.findall(r'\b\w+\b', text)`: `cur` holds the reversed
run of word characters currently being read. -/
def findWordsAux (cur : List Char) : List Char → List (List Char)
  | [] => if cur.isEmpty then [] else [cur.reverse]
  | c :: cs =>
    if isWordChar c then findWordsAux (c :: cur) cs
    else if cur.isEmpty then findWordsAux [] cs
    else cur.reverse :: findWordsAux [] cs

/-- `re.findall(r'\b\w+\b', text)`: the maximal runs of word characters. -/
def findWords (l : List Char) : List (List Char) := findWordsAux [] l

/-- `tokenize(text)`: lower-case, split into words, and keep the words of
length `> 3` that are not stop words, as a set. -/
def tokenize (text : String) : Finset String :=
  if text = "" then ∅
  else
    (((findWords (pyLower text).data).map (fun w => (⟨w⟩ : String))).filter
      (fun w => 3 < w.length && !(stop_words.contains w))).toFinset

/-! ## Section extractor

`extract_sections` reads a file, removes the front matter, and scans the
remaining lines.  The file read and front-matter removal are the external
collaborator's part of the boundary; the embedded function receives the
body as its list of lines (`content.split('\n')`). -/

/-- The canonical section keys of `extract_sections`. -/
inductive SKey where
  | problem
  | solution
  | how_to_use
  | trade_offs
deriving DecidableEq, Repr

/-- Canonicalisation of a `## ` header: the source lower-cases and strips
`line[3:]` and then tests substring containment against the synonyms. -/
def classifyHeader (s : String) : Option SKey :=
  if pyContains s "problem" then some .problem
  else if pyContains s "solution" then some .solution
  else if pyContains s "how to use" then some .how_to_use
  else if pyContains s "trade-off" then some .trade_offs
  else none

/-- `sections[current_section] = ' '.join(current_content)` (dict update). -/
def updateSec (m : SKey → Option String) (k : SKey) (v : String) : SKey → Option String :=
  fun k' => if k' = k then some v else m k'

/-- Close the current section, if any (`if current_section: sections[...] = ...`). -/
def closeSec (m : SKey → Option String) (cur : Option SKey) (content : List String) :
    SKey → Option String :=
  match cur with
  | some k => updateSec m k (String.intercalate " " content)
  | none => m

/-- The line scanner of `extract_sections`: a `## ` header closes the
current section and opens a new one; inside a section, a line whose
stripped form starts with a fence marker is skipped, and any other line is
appended stripped.  Lines outside every section are discarded. -/
def extractLoop : List String → (SKey → Option String) → Option SKey → List String →
    (SKey → Option String)
  | [], secs, cur, content => closeSec secs cur content
  | line :: rest, secs, cur, content =>
    if pyStartsWith line "## " then
      extractLoop rest (closeSec secs cur content)
        (classifyHeader (pyLower (pyStrip (pyDrop line 3)))) []
    else
      match cur with
      | some k =>
        if pyStartsWith (pyStrip line) "```" || pyStartsWith (pyStrip line) "~~~" then
          extractLoop rest secs (some k) content
        else
          extractLoop rest secs (some k) (content ++ [pyStrip line])
      | none => extractLoop rest secs none content

/-- `extract_sections`, on the body of a document given as its lines. -/
def extract_sections (lines : List String) : SKey → Option String :=
  extractLoop lines (fun _ => none) none []

/-! ## Document model and weighted aggregator

`_load_patterns` (globbing, file reads, `parse_front_matter`) is the
external corpus-loading collaborator; a loaded pattern dict becomes a
`Pattern` record with the fields the engine reads.  `tags` holds the
already lower-cased tag list stored at load time. -/

/-- One loaded pattern (the dict built in `_load_patterns` /
`compare_to_pattern`), restricted to the fields the engine reads. -/
structure Pattern where
  file : String
  title : String
  tags : List String
  category : String
  sections : SKey → Option String

/-- The dict returned by `_calculate_similarity`. -/
structure SimilarityScore where
  tag : ℚ
  title : ℚ
  category : ℚ
  content : ℚ
  total : ℚ
deriving DecidableEq, Repr

/-- The content token set of a pattern: the union of the tokens of its
`problem` and `solution` sections (the loop
`for section in ["problem", "solution"]: ... tokens.update(...)`). -/
def sectionTokens (p : Pattern) : Finset String :=
  (match p.sections .problem with | some t => tokenize t | none => ∅) ∪
    (match p.sections .solution with | some t => tokenize t | none => ∅)

/-- `_calculate_similarity(pattern1, pattern2)`: the four sub-scores and
their fixed-weight total. -/
def calculate_similarity (pattern1 pattern2 : Pattern) : SimilarityScore :=
  let tags1 := pattern1.tags.toFinset
  let tags2 := pattern2.tags.toFinset
  let tag_sim := jaccard_similarity tags1 tags2
  let title_sim := string_similarity pattern1.title pattern2.title
  let category_match : ℚ := if pattern1.category = pattern2.category then 1 else 0
  let content_sim := jaccard_similarity (sectionTokens pattern1) (sectionTokens pattern2)
  let total := tag_sim * 0.30 + title_sim * 0.20 + category_match * 0.15 + content_sim * 0.35
  ⟨tag_sim, title_sim, category_match, content_sim, total⟩

/-- `suggest_action(similarity)`: the five ordinal action bands on the
total score, evaluated top-down. -/
def suggest_action (similarity : SimilarityScore) : String :=
  if 0.8 ≤ similarity.total then "MERGE - Patterns are very similar, consider merging"
  else if 0.7 ≤ similarity.total then "REVIEW - High similarity, manual review needed"
  else if 0.6 ≤ similarity.total then "CHECK - Moderate similarity, check if related"
  else if 0.5 ≤ similarity.total then "RELATED - May be related patterns"
  else "OK - Below similarity threshold"

/-! ## Pairwise comparison engine

`results.sort(key=lambda x: x["similarity"]["total"], reverse=True)` is a
stable descending sort by total; it is modelled by insertion sort with the
relation "my total is at least yours", which is the stable descending
sort by that key. -/

/-- The sort relation of `list.sort(key=..., reverse=True)`: `a` may come
before `b` when `a`'s key is at least `b`'s. -/
def keyRel {α : Type} (key : α → ℚ) (a b : α)  : Prop := key b ≤ key a

instance keyRelDecidable {α : Type} (key : α → ℚ) : DecidableRel (keyRel key) :=
  fun a b => inferInstanceAs (Decidable (key b ≤ key a))

/-- Stable descending sort by a rational-valued key: the model of
`list.sort(key=..., reverse=True)` (CPython's sort is stable, also with
`reverse=True`; insertion sort by `keyRel` computes exactly the stable
descending reordering). -/
def sortByKeyDesc {α : Type} (key : α → ℚ) (l : List α) : List α :=
  List.insertionSort (keyRel key) l

/-- The `PatternSimilarityChecker` object state: the corpus loaded by
`_load_patterns` and the reporting threshold. -/
structure Checker where
  patterns : List Pattern
  threshold : ℚ

/-- One entry of the list returned by `compare_to_pattern`. -/
structure CompareResult where
  existing_file : String
  existing_title : String
  similarity : SimilarityScore
deriving DecidableEq, Repr

/-- One entry of the list returned by `check_all_similarities`. -/
structure PairResult where
  pattern1 : String
  pattern2 : String
  title1 : String
  title2 : String
  similarity : SimilarityScore
deriving DecidableEq, Repr

/-- The result accumulation loop of `compare_to_pattern`: skip the corpus
entry whose file name equals the candidate's, keep entries whose total
reaches the threshold, in corpus order. -/
def compareResultsUnsorted (patterns : List Pattern) (threshold : ℚ)
    (new_pattern : Pattern) : List CompareResult :=
  patterns.filterMap (fun existing =>
    if existing.file = new_pattern.file then none
    else
      let similarity := calculate_similarity new_pattern existing
      if threshold ≤ similarity.total then
        some ⟨existing.file, existing.title, similarity⟩
      else none)

/-- `compare_to_pattern(filepath)`: parsing the candidate file
(`parse_front_matter` + `extract_sections`, file I/O included) is the
external boundary, modelled by the `Except` argument: `.ok` carries the
`new_pattern` record built from the parsed metadata, `.error` the caught
exception message.  The checker state is threaded explicitly; the method
never mutates it. -/
def compare_to_pattern (c : Checker) (parsed : Except String Pattern) :
    List CompareResult × Checker :=
  match parsed with
  | .error _ => ([], c)
  | .ok new_pattern =>
    (sortByKeyDesc (fun r => r.similarity.total)
      (compareResultsUnsorted c.patterns c.threshold new_pattern), c)

/-- The nested loop of `check_all_similarities`: each `pattern1` is
compared against the strictly later entries `self.patterns[i + 1:]`. -/
def allPairsResults (threshold : ℚ) : List Pattern → List PairResult
  | [] => []
  | pattern1 :: rest =>
    (rest.filterMap (fun pattern2 =>
      let similarity := calculate_similarity pattern1 pattern2
      if threshold ≤ similarity.total then
        some ⟨pattern1.file, pattern2.file, pattern1.title, pattern2.title, similarity⟩
      else none)) ++ allPairsResults threshold rest

/-- `check_all_similarities()`: all unordered corpus pairs, filtered by
the threshold and sorted by total, descending. -/
def check_all_similarities (c : Checker) : List PairResult :=
  sortByKeyDesc (fun r => r.similarity.total) (allPairsResults c.threshold c.patterns)

/-! ## Lemmas about the metrics -/

lemma pyLower_length (s : String) : (pyLower s).length = s.length := by
  cases s with
  | mk d => simp [pyLower, String.length]

lemma string_length_pos_of_ne_empty {s : String} (h : s ≠ "") : 0 < s.length := by
  cases s with
  | mk d =>
    cases d with
    | nil => exact absurd (String.ext_iff.mpr rfl) h
    | cons c l => simp [String.length]

lemma jaccard_similarity_nonneg (s1 s2 : Finset String) :
    0 ≤ jaccard_similarity s1 s2 := by
  simp only [jaccard_similarity]
  split_ifs
  · exact le_refl 0
  · positivity
  · exact le_refl 0

lemma jaccard_similarity_le_one (s1 s2 : Finset String) :
    jaccard_similarity s1 s2 ≤ 1 := by
  simp only [jaccard_similarity]
  split_ifs with h1 h2
  · norm_num
  · rw [div_le_one (by exact_mod_cast h2)]
    exact_mod_cast Finset.card_le_card Finset.inter_subset_union
  · norm_num

lemma jaccard_similarity_self {s : Finset String} (h : s ≠ ∅) :
    jaccard_similarity s s = 1 := by
  simp only [jaccard_similarity]
  rw [if_neg (by simpa using h)]
  have hcard : 0 < s.card := Finset.card_pos.mpr (Finset.nonempty_of_ne_empty h)
  rw [Finset.inter_self, Finset.union_self, if_pos hcard]
  rw [div_self (by exact_mod_cast hcard.ne')]

lemma string_similarity_nonneg (s1 s2 : String) : 0 ≤ string_similarity s1 s2 := by
  simp only [string_similarity]
  split_ifs with h1 h2
  · exact le_refl 0
  · norm_num
  · have hmax : 0 < max s1.length s2.length := by omega
    have hd : levenshtein_distance (pyLower s1).data (pyLower s2).data ≤
        max s1.length s2.length := by
      have := levenshtein_distance_le_max (pyLower s1).data (pyLower s2).data
      have l1 : (pyLower s1).data.length = s1.length := by
        rw [← pyLower_length s1]; rfl
      have l2 : (pyLower s2).data.length = s2.length := by
        rw [← pyLower_length s2]; rfl
      rw [l1, l2] at this
      exact this
    have hq : (levenshtein_distance (pyLower s1).data (pyLower s2).data : ℚ) /
        ((max s1.length s2.length : ℕ) : ℚ) ≤ 1 := by
      rw [div_le_one (by exact_mod_cast hmax)]
      exact_mod_cast hd
    linarith

lemma string_similarity_le_one (s1 s2 : String) : string_similarity s1 s2 ≤ 1 := by
  simp only [string_similarity]
  split_ifs with h1 h2
  · norm_num
  · exact le_refl 1
  · have hmax : 0 < max s1.length s2.length := by omega
    have hq : (0 : ℚ) ≤ (levenshtein_distance (pyLower s1).data (pyLower s2).data : ℚ) /
        ((max s1.length s2.length : ℕ) : ℚ) := by positivity
    linarith

lemma string_similarity_self {s : String} (h : s ≠ "") :
    string_similarity s s = 1 := by
  simp only [string_similarity]
  rw [if_neg (by simpa using h)]
  have hmax : max s.length s.length ≠ 0 := by
    have := string_length_pos_of_ne_empty h
    omega
  rw [if_neg hmax, levenshtein_distance_self]
  simp

/-! ## Claim theorems (first batch) -/

/-- C1: for every pair of documents, the score of `_calculate_similarity`
satisfies `total == 0.30*tag + 0.20*title + 0.15*category + 0.35*content`
exactly, and `total` lies in `[0, 1]`. -/
theorem C1_total_weighted_sum_bounded (p1 p2 : Pattern) :
    (calculate_similarity p1 p2).total =
        0.30 * (calculate_similarity p1 p2).tag +
          0.20 * (calculate_similarity p1 p2).title +
          0.15 * (calculate_similarity p1 p2).category +
          0.35 * (calculate_similarity p1 p2).content ∧
      0 ≤ (calculate_similarity p1 p2).total ∧ (calculate_similarity p1 p2).total ≤ 1 := by
  simp only [calculate_similarity]
  have h1a := jaccard_similarity_nonneg p1.tags.toFinset p2.tags.toFinset
  have h1b := jaccard_similarity_le_one p1.tags.toFinset p2.tags.toFinset
  have h2a := string_similarity_nonneg p1.title p2.title
  have h2b := string_similarity_le_one p1.title p2.title
  have h3a : (0 : ℚ) ≤ (if p1.category = p2.category then (1 : ℚ) else 0) := by
    split_ifs <;> norm_num
  have h3b : (if p1.category = p2.category then (1 : ℚ) else 0) ≤ 1 := by
    split_ifs <;> norm_num
  have h4a := jaccard_similarity_nonneg (sectionTokens p1) (sectionTokens p2)
  have h4b := jaccard_similarity_le_one (sectionTokens p1) (sectionTokens p2)
  refine ⟨by ring, ?_, ?_⟩
  · nlinarith [h1a, h2a, h3a, h4a]
  · nlinarith [h1b, h2b, h3b, h4b]

/-- C3 (amended): `string_similarity` returns `0.0` whenever at least one
of its two inputs is empty, including when both are empty; the branch
returning `1.0` for two empty strings is unreachable. -/
theorem C3_empty_string_zero (s1 s2 : String) (h : s1 = "" ∨ s2 = "") :
    string_similarity s1 s2 = 0 := by
  rw [string_similarity, if_pos h]

/-- C3 counterexample: on two empty strings `string_similarity` returns
`0.0`, not the `1.0` the claim states. -/
theorem C3_counterexample :
    string_similarity "" "" = 0 ∧ string_similarity "" "" ≠ 1 := by
  have h : string_similarity "" "" = 0 := by
    rw [string_similarity, if_pos (Or.inl rfl)]
  exact ⟨h, by rw [h]; norm_num⟩

/-- Witness for C3: the amended theorem applied at `("", "x")`. -/
theorem C3_witness :
    (("" : String) = "" ∨ ("x" : String) = "") ∧ string_similarity "" "x" = 0 :=
  ⟨Or.inl rfl, C3_empty_string_zero "" "x" (Or.inl rfl)⟩

/-- C7: all three similarity metrics are exactly commutative. -/
theorem C7_metrics_commutative :
    (∀ A B : Finset String, jaccard_similarity A B = jaccard_similarity B A) ∧
      (∀ A B : Finset String, cosine_similarity A B = cosine_similarity B A) ∧
      (∀ s1 s2 : String, string_similarity s1 s2 = string_similarity s2 s1) := by
  refine ⟨fun A B => ?_, fun A B => ?_, fun s1 s2 => ?_⟩
  · simp only [jaccard_similarity]
    rw [Finset.inter_comm, Finset.union_comm]
    by_cases h : A = ∅ ∨ B = ∅
    · rw [if_pos h, if_pos (show B = ∅ ∨ A = ∅ from h.symm)]
    · rw [if_neg h, if_neg (show ¬(B = ∅ ∨ A = ∅) from fun hc => h hc.symm)]
  · simp only [cosine_similarity]
    rw [Finset.inter_comm, mul_comm]
    by_cases h : A = ∅ ∨ B = ∅
    · rw [if_pos h, if_pos (show B = ∅ ∨ A = ∅ from h.symm)]
    · rw [if_neg h, if_neg (show ¬(B = ∅ ∨ A = ∅) from fun hc => h hc.symm)]
  · simp only [string_similarity]
    rw [levenshtein_distance_symm, max_comm]
    by_cases h : s1 = "" ∨ s2 = ""
    · rw [if_pos h, if_pos (show s2 = "" ∨ s1 = "" from h.symm)]
    · rw [if_neg h, if_neg (show ¬(s2 = "" ∨ s1 = "") from fun hc => h hc.symm)]

/-- C10: when parsing the candidate file fails, `compare_to_pattern`
returns the empty result list and the checker state (the loaded corpus
and threshold) unchanged. -/
theorem C10_parse_failure_empty (c : Checker) (msg : String) :
    compare_to_pattern c (Except.error msg) = ([], c) := rfl

/-- C6: `suggest_action` realises the five ordinal bands, top-down with
first match winning: MERGE iff `total ≥ 0.8`, REVIEW iff
`0.7 ≤ total < 0.8`, CHECK iff `0.6 ≤ total < 0.7`, RELATED iff
`0.5 ≤ total < 0.6`, OK otherwise. -/
theorem C6_action_bands (s : SimilarityScore) :
    (suggest_action s = "MERGE - Patterns are very similar, consider merging" ↔
        0.8 ≤ s.total) ∧
      (suggest_action s = "REVIEW - High similarity, manual review needed" ↔
        0.7 ≤ s.total ∧ s.total < 0.8) ∧
      (suggest_action s = "CHECK - Moderate similarity, check if related" ↔
        0.6 ≤ s.total ∧ s.total < 0.7) ∧
      (suggest_action s = "RELATED - May be related patterns" ↔
        0.5 ≤ s.total ∧ s.total < 0.6) ∧
      (suggest_action s = "OK - Below similarity threshold" ↔ s.total < 0.5) := by
  unfold suggest_action
  split_ifs with h1 h2 h3 h4 <;> refine ⟨?_, ?_, ?_, ?_, ?_⟩
  all_goals simp
  all_goals try intros
  all_goals first
    | linarith
    | (constructor <;> linarith)

/-- C2 (evidence for the code bug): on a body whose `## Problem` section
contains a fenced code block, the text between the fence markers survives
into the extracted section text — only the marker lines themselves are
skipped; `extract_sections` keeps no open/close fence state. -/
theorem C2_fence_content_leaks :
    extract_sections ["## Problem", "```", "leaked fence content", "```", "after"]
      SKey.problem = some "leaked fence content after" := by decide

/-! ## Scenario A boundary documents (C8) -/

/-- Sections whose problem/solution text consists only of stop words, so
that its token set is empty. -/
def stopWordSections : SKey → Option String := fun k =>
  match k with
  | .problem => some "the and"
  | .solution => some "the and"
  | _ => none

/-- A document with an empty title and stop-word-only content. -/
def cexDoc1 : Pattern :=
  ⟨"a.md", "", ["agent", "memory"], "agent-coordination", stopWordSections⟩

/-- A second document identical to `cexDoc1` except for its file name. -/
def cexDoc2 : Pattern :=
  ⟨"b.md", "", ["agent", "memory"], "agent-coordination", stopWordSections⟩

/-- C8 counterexample: two documents with identical titles, identical tag
sets `{"agent","memory"}`, identical category and identical
problem/solution section text, for which the aggregator nevertheless
yields `total = 9/20`, not `1.0` (and the action is not MERGE): the
shared title is empty and the shared content tokenizes to the empty set. -/
theorem C8_counterexample :
    (cexDoc1.title = cexDoc2.title ∧ cexDoc1.tags = ["agent", "memory"] ∧
        cexDoc2.tags = ["agent", "memory"] ∧ cexDoc1.category = cexDoc2.category ∧
        cexDoc1.sections .problem = cexDoc2.sections .problem ∧
        cexDoc1.sections .solution = cexDoc2.sections .solution) ∧
      (calculate_similarity cexDoc1 cexDoc2).total = 9 / 20 ∧
      ¬((calculate_similarity cexDoc1 cexDoc2).total = 1 ∧
        suggest_action (calculate_similarity cexDoc1 cexDoc2) =
          "MERGE - Patterns are very similar, consider merging") := by
  have htok1 : sectionTokens cexDoc1 = ∅ := by decide
  have htok2 : sectionTokens cexDoc2 = ∅ := by decide
  have h1 : jaccard_similarity cexDoc1.tags.toFinset cexDoc2.tags.toFinset = 1 :=
    jaccard_similarity_self (by decide)
  have h2 : string_similarity cexDoc1.title cexDoc2.title = 0 := by
    rw [string_similarity,
      if_pos (show cexDoc1.title = "" ∨ cexDoc2.title = "" from Or.inl rfl)]
  have h4 : jaccard_similarity (sectionTokens cexDoc1) (sectionTokens cexDoc2) = 0 := by
    rw [htok1, htok2]
    simp [jaccard_similarity]
  have htot : (calculate_similarity cexDoc1 cexDoc2).total = 9 / 20 := by
    simp only [calculate_similarity]
    rw [h1, h2, h4, if_pos (show cexDoc1.category = cexDoc2.category from rfl)]
    norm_num
  refine ⟨⟨rfl, rfl, rfl, rfl, rfl, rfl⟩, htot, ?_⟩
  rintro ⟨ht1, _⟩
  rw [htot] at ht1
  norm_num at ht1

/-- C8 (amended): for two documents with identical *non-empty* titles,
identical tag sets `{"agent","memory"}`, identical category and identical
problem/solution section text *whose tokenization is non-empty*, the
aggregator yields `total = 1.0` and the classifier recommends MERGE. -/
theorem C8_scenario_a_amended (p1 p2 : Pattern)
    (htitle : p1.title = p2.title) (hne : p1.title ≠ "")
    (htags1 : p1.tags = ["agent", "memory"]) (htags2 : p2.tags = ["agent", "memory"])
    (hcat : p1.category = p2.category)
    (hprob : p1.sections .problem = p2.sections .problem)
    (hsol : p1.sections .solution = p2.sections .solution)
    (hcontent : sectionTokens p1 ≠ ∅) :
    (calculate_similarity p1 p2).total = 1 ∧
      suggest_action (calculate_similarity p1 p2) =
        "MERGE - Patterns are very similar, consider merging" := by
  have hsec : sectionTokens p2 = sectionTokens p1 := by
    unfold sectionTokens
    rw [hprob, hsol]
  have hne2 : p2.title ≠ "" := htitle ▸ hne
  have htot : (calculate_similarity p1 p2).total = 1 := by
    simp only [calculate_similarity]
    rw [htags1, htags2, htitle, hsec, if_pos hcat]
    rw [jaccard_similarity_self (by decide), string_similarity_self hne2,
      jaccard_similarity_self hcontent]
    norm_num
  refine ⟨htot, ?_⟩
  unfold suggest_action
  rw [htot, if_pos (by norm_num : (0.8 : ℚ) ≤ 1)]

/-- Sections with substantive (non-stop-word) problem/solution text. -/
def witSections : SKey → Option String := fun k =>
  match k with
  | .problem => some "agents forget context"
  | .solution => some "persist memory between runs"
  | _ => none

/-- A concrete Scenario A document. -/
def witDoc1 : Pattern := ⟨"a.md", "Reflection", ["agent", "memory"], "memory", witSections⟩

/-- A duplicate of `witDoc1` under a different file name. -/
def witDoc2 : Pattern := ⟨"b.md", "Reflection", ["agent", "memory"], "memory", witSections⟩

/-- Witness for C8: the amended theorem applied to two concrete duplicate
documents. -/
theorem C8_witness :
    (witDoc1.title ≠ "" ∧ sectionTokens witDoc1 ≠ ∅) ∧
      (calculate_similarity witDoc1 witDoc2).total = 1 ∧
      suggest_action (calculate_similarity witDoc1 witDoc2) =
        "MERGE - Patterns are very similar, consider merging" :=
  ⟨⟨by decide, by decide⟩,
    C8_scenario_a_amended witDoc1 witDoc2 rfl (by decide) rfl rfl rfl rfl rfl (by decide)⟩

/-! ## Lemmas about the stable sort -/

lemma mem_sortByKeyDesc {α : Type} (key : α → ℚ) {l : List α} {x : α} :
    x ∈ sortByKeyDesc key l ↔ x ∈ l :=
  List.mem_insertionSort _

lemma sortByKeyDesc_perm {α : Type} (key : α → ℚ) (l : List α) :
    List.Perm (sortByKeyDesc key l) l :=
  List.perm_insertionSort _ l

lemma sortByKeyDesc_sorted {α : Type} (key : α → ℚ) (l : List α) :
    (sortByKeyDesc key l).Pairwise (fun a b => key b ≤ key a) := by
  haveI : IsTotal α (keyRel key) := ⟨fun a b => le_total (key b) (key a)⟩
  haveI : IsTrans α (keyRel key) := ⟨fun _ _ _ hab hbc => le_trans hbc hab⟩
  exact List.sorted_insertionSort (keyRel key) l

lemma filter_key_orderedInsert {α : Type} (key : α → ℚ) (q : ℚ) (x : α) :
    ∀ l : List α,
      (List.orderedInsert (keyRel key) x l).filter (fun a => decide (key a = q)) =
        if key x = q then x :: l.filter (fun a => decide (key a = q))
        else l.filter (fun a => decide (key a = q))
  | [] => by
    by_cases h : key x = q <;> simp [List.orderedInsert, h]
  | y :: ys => by
    rw [List.orderedInsert]
    by_cases hr : keyRel key x y
    · rw [if_pos hr]
      by_cases h : key x = q <;> simp [List.filter_cons, h]
    · rw [if_neg hr]
      have hyx : key x < key y := lt_of_not_le hr
      by_cases h : key x = q
      · have hy : ¬(key y = q) := by
          intro hq
          exact absurd (le_of_eq (hq.trans h.symm)) hr
        rw [if_pos h]
        have hrec := filter_key_orderedInsert key q x ys
        rw [if_pos h] at hrec
        simp [List.filter_cons, hy, hrec]
      · rw [if_neg h]
        have hrec := filter_key_orderedInsert key q x ys
        rw [if_neg h] at hrec
        simp [List.filter_cons, hrec]

/-- Stability of the sort: for every key value, the sorted list restricted
to that key value is the input list restricted to that key value, in the
same order. -/
lemma filter_key_sortByKeyDesc {α : Type} (key : α → ℚ) (q : ℚ) :
    ∀ l : List α,
      (sortByKeyDesc key l).filter (fun a => decide (key a = q)) =
        l.filter (fun a => decide (key a = q))
  | [] => rfl
  | x :: xs => by
    show (List.orderedInsert (keyRel key) x (List.insertionSort (keyRel key) xs)).filter _ = _
    rw [filter_key_orderedInsert key q x (List.insertionSort (keyRel key) xs)]
    by_cases h : key x = q
    · rw [if_pos h]
      rw [show List.insertionSort (keyRel key) xs = sortByKeyDesc key xs from rfl,
        filter_key_sortByKeyDesc key q xs]
      simp [List.filter_cons, h]
    · rw [if_neg h]
      rw [show List.insertionSort (keyRel key) xs = sortByKeyDesc key xs from rfl,
        filter_key_sortByKeyDesc key q xs]
      simp [List.filter_cons, h]

/-! ## Lemmas about the comparison engine -/

lemma mem_compareResultsUnsorted {ps : List Pattern} {t : ℚ} {cand : Pattern}
    {r : CompareResult} (h : r ∈ compareResultsUnsorted ps t cand) :
    r.existing_file ≠ cand.file ∧ t ≤ r.similarity.total := by
  obtain ⟨existing, hmem, hf⟩ := List.mem_filterMap.mp h
  dsimp only at hf
  split_ifs at hf with h1 h2
  all_goals first
    | exact Option.noConfusion hf
    | (cases hf; exact ⟨h1, h2⟩)

lemma compareResultsUnsorted_mono {t1 t2 : ℚ} (h : t1 ≤ t2) (ps : List Pattern)
    (cand : Pattern) {r : CompareResult} (hr : r ∈ compareResultsUnsorted ps t2 cand) :
    r ∈ compareResultsUnsorted ps t1 cand := by
  obtain ⟨existing, hmem, hf⟩ := List.mem_filterMap.mp hr
  refine List.mem_filterMap.mpr ⟨existing, hmem, ?_⟩
  dsimp only at hf ⊢
  split_ifs at hf with h1 h2
  all_goals first
    | exact Option.noConfusion hf
    | (rw [if_neg h1, if_pos (le_trans h h2)]; exact hf)

lemma allPairsResults_mono {t1 t2 : ℚ} (h : t1 ≤ t2) :
    ∀ (ps : List Pattern) (r : PairResult),
      r ∈ allPairsResults t2 ps → r ∈ allPairsResults t1 ps
  | [], r, hr => absurd hr (by simp [allPairsResults])
  | p :: rest, r, hr => by
    rw [allPairsResults] at hr ⊢
    rcases List.mem_append.mp hr with hh | ht
    · refine List.mem_append.mpr (Or.inl ?_)
      obtain ⟨p2, hmem, hf⟩ := List.mem_filterMap.mp hh
      refine List.mem_filterMap.mpr ⟨p2, hmem, ?_⟩
      dsimp only at hf ⊢
      split_ifs at hf with h2
      all_goals first
        | exact Option.noConfusion hf
        | (rw [if_pos (le_trans h h2)]; exact hf)
    · exact List.mem_append.mpr (Or.inr (allPairsResults_mono h rest r ht))

lemma mem_allPairsResults (t : ℚ) :
    ∀ (ps : List Pattern) (r : PairResult), r ∈ allPairsResults t ps →
      ∃ (i j : ℕ) (hi : i < ps.length) (hj : j < ps.length),
        i < j ∧ r.pattern1 = (ps.get ⟨i, hi⟩).file ∧ r.pattern2 = (ps.get ⟨j, hj⟩).file
  | [], r, hr => absurd hr (by simp [allPairsResults])
  | p :: rest, r, hr => by
    rw [allPairsResults] at hr
    rcases List.mem_append.mp hr with hh | ht
    · obtain ⟨p2, hmem, hf⟩ := List.mem_filterMap.mp hh
      obtain ⟨k, hk⟩ := List.mem_iff_get.mp hmem
      dsimp only at hf
      split_ifs at hf with h2
      all_goals first
        | exact Option.noConfusion hf
        | (cases hf
           refine ⟨0, (k : ℕ) + 1, by simp, by simp,
             Nat.succ_pos _, rfl, ?_⟩
           show p2.file = (rest.get ⟨(k : ℕ), k.isLt⟩).file
           rw [show rest.get ⟨(k : ℕ), k.isLt⟩ = rest.get k from rfl, hk])
    · obtain ⟨i, j, hi, hj, hij, e1, e2⟩ := mem_allPairsResults t rest r ht
      exact ⟨i + 1, j + 1, by simpa using hi, by simpa using hj,
        Nat.succ_lt_succ hij, e1, e2⟩

lemma files_get_ne {ps : List Pattern} (hnd : (ps.map Pattern.file).Nodup)
    {i j : ℕ} (hi : i < ps.length) (hj : j < ps.length) (hij : i ≠ j) :
    (ps.get ⟨i, hi⟩).file ≠ (ps.get ⟨j, hj⟩).file := by
  intro hEq
  have hi' : i < (ps.map Pattern.file).length := by simpa using hi
  have hj' : j < (ps.map Pattern.file).length := by simpa using hj
  have e1 : (ps.map Pattern.file).get ⟨i, hi'⟩ = (ps.get ⟨i, hi⟩).file := by
    simp
  have e2 : (ps.map Pattern.file).get ⟨j, hj'⟩ = (ps.get ⟨j, hj⟩).file := by
    simp
  have hfin : (⟨i, hi'⟩ : Fin (ps.map Pattern.file).length) = ⟨j, hj'⟩ :=
    (List.Nodup.get_inj_iff hnd).mp (by rw [e1, e2]; exact hEq)
  exact hij (by simpa using hfin)

/-- Auxiliary: `List.Pairwise` descends through `filterMap`. -/
lemma pairwise_filterMap_of {α β : Type} {R : β → β → Prop} (f : α → Option β) :
    ∀ {l : List α},
      l.Pairwise (fun a b => ∀ x, f a = some x → ∀ y, f b = some y → R x y) →
        (l.filterMap f).Pairwise R := by
  intro l h
  induction l with
  | nil => exact List.Pairwise.nil
  | cons a l ih =>
    rw [List.pairwise_cons] at h
    obtain ⟨hhead, htail⟩ := h
    rw [List.filterMap_cons]
    cases hfa : f a with
    | none => exact ih htail
    | some b =>
      refine List.pairwise_cons.mpr ⟨?_, ih htail⟩
      intro y hy
      obtain ⟨a', ha', hfy⟩ := List.mem_filterMap.mp hy
      exact hhead a' ha' b hfa y hfy

/-- Auxiliary: a pairwise relation can be enriched with membership of the
two elements in the list itself. -/
lemma pairwise_and_mem_of {α : Type} {R : α → α → Prop} :
    ∀ {l : List α}, l.Pairwise R → l.Pairwise (fun a b => a ∈ l ∧ b ∈ l ∧ R a b) := by
  intro l h
  induction l with
  | nil => exact List.Pairwise.nil
  | cons a l ih =>
    rw [List.pairwise_cons] at h
    obtain ⟨hhead, htail⟩ := h
    refine List.pairwise_cons.mpr ⟨?_, ?_⟩
    · intro b hb
      exact ⟨List.mem_cons_self a l, List.mem_cons_of_mem a hb, hhead b hb⟩
    · refine (ih htail).imp ?_
      rintro x y ⟨hx, hy, hr⟩
      exact ⟨List.mem_cons_of_mem a hx, List.mem_cons_of_mem a hy, hr⟩

lemma pairwise_distinct_allPairs (t : ℚ) :
    ∀ ps : List Pattern, (ps.map Pattern.file).Nodup →
      (allPairsResults t ps).Pairwise (fun r r' =>
        ¬(r.pattern1 = r'.pattern1 ∧ r.pattern2 = r'.pattern2) ∧
          ¬(r.pattern1 = r'.pattern2 ∧ r.pattern2 = r'.pattern1))
  | [], _ => by simp [allPairsResults]
  | p :: rest, hnd => by
    rw [List.map_cons, List.nodup_cons] at hnd
    obtain ⟨hp, hrest⟩ := hnd
    rw [allPairsResults, List.pairwise_append]
    refine ⟨?_, pairwise_distinct_allPairs t rest hrest, ?_⟩
    · apply pairwise_filterMap_of
      have hpair : rest.Pairwise (fun a b => a ∈ rest ∧ b ∈ rest ∧ a.file ≠ b.file) :=
        pairwise_and_mem_of (List.pairwise_map.mp hrest)
      refine hpair.imp ?_
      rintro a b ⟨ha, hb, hab⟩ x hx y hy
      dsimp only at hx hy
      split_ifs at hx with h1
      cases hx
      split_ifs at hy with h2
      cases hy
      constructor
      · rintro ⟨_, hEq⟩
        have hEq' : a.file = b.file := hEq
        exact hab hEq'
      · rintro ⟨hEq, _⟩
        have hEq' : p.file = b.file := hEq
        exact hp (by rw [hEq']; exact List.mem_map_of_mem Pattern.file hb)
    · intro r hr r' hr'
      obtain ⟨a, ha, hfa⟩ := List.mem_filterMap.mp hr
      dsimp only at hfa
      split_ifs at hfa with h1
      cases hfa
      obtain ⟨i, j, hi, hj, hij, e1, e2⟩ := mem_allPairsResults t rest r' hr'
      have h1mem : r'.pattern1 ∈ rest.map Pattern.file := by
        rw [e1]
        exact List.mem_map_of_mem Pattern.file (List.get_mem rest _ _)
      have h2mem : r'.pattern2 ∈ rest.map Pattern.file := by
        rw [e2]
        exact List.mem_map_of_mem Pattern.file (List.get_mem rest _ _)
      constructor
      · rintro ⟨hEq, _⟩
        have hEq' : p.file = r'.pattern1 := hEq
        exact hp (by rw [hEq']; exact h1mem)
      · rintro ⟨hEq, _⟩
        have hEq' : p.file = r'.pattern2 := hEq
        exact hp (by rw [hEq']; exact h2mem)

/-! ## Claim theorems (engine) -/

/-- C5: in one-vs-corpus mode, no result carries the candidate's own file
name, every result's total reaches the threshold, the list is sorted by
total descending, and ties are kept in corpus order (for each key value,
filtering the sorted output gives exactly the corpus-order filtered
list). -/
theorem C5_one_vs_corpus (c : Checker) (cand : Pattern) :
    (∀ r ∈ (compare_to_pattern c (Except.ok cand)).1, r.existing_file ≠ cand.file) ∧
      (∀ r ∈ (compare_to_pattern c (Except.ok cand)).1, c.threshold ≤ r.similarity.total) ∧
      ((compare_to_pattern c (Except.ok cand)).1).Pairwise
        (fun a b => b.similarity.total ≤ a.similarity.total) ∧
      ∀ q : ℚ,
        ((compare_to_pattern c (Except.ok cand)).1).filter
            (fun r => decide (r.similarity.total = q)) =
          (compareResultsUnsorted c.patterns c.threshold cand).filter
            (fun r => decide (r.similarity.total = q)) := by
  have hfst : (compare_to_pattern c (Except.ok cand)).1 =
      sortByKeyDesc (fun r => r.similarity.total)
        (compareResultsUnsorted c.patterns c.threshold cand) := rfl
  refine ⟨?_, ?_, ?_, ?_⟩
  · intro r hr
    rw [hfst, mem_sortByKeyDesc] at hr
    exact (mem_compareResultsUnsorted hr).1
  · intro r hr
    rw [hfst, mem_sortByKeyDesc] at hr
    exact (mem_compareResultsUnsorted hr).2
  · rw [hfst]
    exact sortByKeyDesc_sorted _ _
  · intro q
    rw [hfst]
    exact filter_key_sortByKeyDesc _ q _

/-- Witness for C5: the theorem applied to a concrete checker and
candidate. -/
theorem C5_witness :
    ((compare_to_pattern ⟨[witDoc2], 1 / 2⟩ (Except.ok witDoc1)).1).Pairwise
      (fun a b => b.similarity.total ≤ a.similarity.total) :=
  (C5_one_vs_corpus ⟨[witDoc2], 1 / 2⟩ witDoc1).2.2.1

/-- Coverage of the nested loop: every pair of corpus positions `i < j`
whose similarity total reaches the threshold contributes its result
record to `allPairsResults` — each unordered pair really is scored and,
when it qualifies, reported. -/
lemma allPairsResults_coverage (t : ℚ) :
    ∀ (ps : List Pattern) (i j : ℕ) (hi : i < ps.length) (hj : j < ps.length),
      i < j →
      t ≤ (calculate_similarity (ps.get ⟨i, hi⟩) (ps.get ⟨j, hj⟩)).total →
      (⟨(ps.get ⟨i, hi⟩).file, (ps.get ⟨j, hj⟩).file, (ps.get ⟨i, hi⟩).title,
          (ps.get ⟨j, hj⟩).title,
          calculate_similarity (ps.get ⟨i, hi⟩) (ps.get ⟨j, hj⟩)⟩ : PairResult) ∈
        allPairsResults t ps
  | [], i, _, hi, _, _, _ => absurd hi (Nat.not_lt_zero i)
  | _ :: _, 0, 0, _, _, hij, _ => absurd hij (by omega)
  | _ :: _, i + 1, 0, _, _, hij, _ => absurd hij (by omega)
  | p :: rest, 0, j + 1, hi, hj, _, hth => by
    rw [allPairsResults]
    refine List.mem_append.mpr (Or.inl ?_)
    refine List.mem_filterMap.mpr
      ⟨rest.get ⟨j, by simpa using hj⟩, List.get_mem _ _ _, ?_⟩
    dsimp only
    have hth' : t ≤ (calculate_similarity p (rest.get ⟨j, by simpa using hj⟩)).total := hth
    rw [if_pos hth']
    rfl
  | p :: rest, i + 1, j + 1, hi, hj, hij, hth => by
    rw [allPairsResults]
    refine List.mem_append.mpr (Or.inr ?_)
    exact allPairsResults_coverage t rest i j (by simpa using hi) (by simpa using hj)
      (by omega) hth

/-- C4: in all-pairs mode (with the corpus invariant that file names are
unique), no result pairs a document with itself, no unordered pair is
reported twice (in either orientation), every result pairs a document
with a strictly later one in corpus order, and conversely every unordered
pair of distinct documents is scored: whenever its total reaches the
threshold, its result record is in the output. -/
theorem C4_all_pairs_unique (c : Checker)
    (hnd : (c.patterns.map Pattern.file).Nodup) :
    (∀ r ∈ check_all_similarities c, r.pattern1 ≠ r.pattern2) ∧
      (check_all_similarities c).Pairwise (fun r r' =>
        ¬(r.pattern1 = r'.pattern1 ∧ r.pattern2 = r'.pattern2) ∧
          ¬(r.pattern1 = r'.pattern2 ∧ r.pattern2 = r'.pattern1)) ∧
      (∀ r ∈ check_all_similarities c,
        ∃ (i j : ℕ) (hi : i < c.patterns.length) (hj : j < c.patterns.length),
          i < j ∧ r.pattern1 = (c.patterns.get ⟨i, hi⟩).file ∧
            r.pattern2 = (c.patterns.get ⟨j, hj⟩).file) ∧
      ∀ (i j : ℕ) (hi : i < c.patterns.length) (hj : j < c.patterns.length),
        i < j →
        c.threshold ≤ (calculate_similarity (c.patterns.get ⟨i, hi⟩)
            (c.patterns.get ⟨j, hj⟩)).total →
        (⟨(c.patterns.get ⟨i, hi⟩).file, (c.patterns.get ⟨j, hj⟩).file,
            (c.patterns.get ⟨i, hi⟩).title, (c.patterns.get ⟨j, hj⟩).title,
            calculate_similarity (c.patterns.get ⟨i, hi⟩) (c.patterns.get ⟨j, hj⟩)⟩ :
          PairResult) ∈ check_all_similarities c := by
  have hmem : ∀ {r : PairResult}, r ∈ check_all_similarities c →
      r ∈ allPairsResults c.threshold c.patterns :=
    fun hr => (mem_sortByKeyDesc _).mp hr
  refine ⟨?_, ?_, ?_, ?_⟩
  · intro r hr
    obtain ⟨i, j, hi, hj, hij, e1, e2⟩ := mem_allPairsResults _ _ r (hmem hr)
    rw [e1, e2]
    exact files_get_ne hnd hi hj (Nat.ne_of_lt hij)
  · have hperm := sortByKeyDesc_perm (fun r : PairResult => r.similarity.total)
      (allPairsResults c.threshold c.patterns)
    have hsymm : ∀ {x y : PairResult},
        (¬(x.pattern1 = y.pattern1 ∧ x.pattern2 = y.pattern2) ∧
          ¬(x.pattern1 = y.pattern2 ∧ x.pattern2 = y.pattern1)) →
        (¬(y.pattern1 = x.pattern1 ∧ y.pattern2 = x.pattern2) ∧
          ¬(y.pattern1 = x.pattern2 ∧ y.pattern2 = x.pattern1)) := by
      rintro x y ⟨ha, hb⟩
      exact ⟨fun ⟨u, v⟩ => ha ⟨u.symm, v.symm⟩, fun ⟨u, v⟩ => hb ⟨v.symm, u.symm⟩⟩
    exact (hperm.pairwise_iff hsymm).mpr
      (pairwise_distinct_allPairs c.threshold c.patterns hnd)
  · intro r hr
    exact mem_allPairsResults _ _ r (hmem hr)
  · intro i j hi hj hij hth
    exact (mem_sortByKeyDesc _).mpr
      (allPairsResults_coverage c.threshold c.patterns i j hi hj hij hth)

/-- Witness for C4: the theorem applied to a concrete two-document
corpus with distinct file names. -/
theorem C4_witness :
    (((⟨[witDoc1, witDoc2], 1 / 2⟩ : Checker).patterns.map Pattern.file).Nodup) ∧
      (check_all_similarities ⟨[witDoc1, witDoc2], 1 / 2⟩).Pairwise (fun r r' =>
        ¬(r.pattern1 = r'.pattern1 ∧ r.pattern2 = r'.pattern2) ∧
          ¬(r.pattern1 = r'.pattern2 ∧ r.pattern2 = r'.pattern1)) :=
  ⟨by decide, (C4_all_pairs_unique ⟨[witDoc1, witDoc2], 1 / 2⟩ (by decide)).2.1⟩

/-- C9: raising the threshold shrinks or preserves the reported set, in
both modes, for a fixed corpus (and fixed candidate). -/
theorem C9_threshold_monotone (patterns : List Pattern) (cand : Pattern) {t1 t2 : ℚ}
    (h : t1 ≤ t2) :
    check_all_similarities ⟨patterns, t2⟩ ⊆ check_all_similarities ⟨patterns, t1⟩ ∧
      (compare_to_pattern ⟨patterns, t2⟩ (Except.ok cand)).1 ⊆
        (compare_to_pattern ⟨patterns, t1⟩ (Except.ok cand)).1 := by
  constructor
  · intro r hr
    have hr' := (mem_sortByKeyDesc (fun r : PairResult => r.similarity.total)).mp hr
    exact (mem_sortByKeyDesc _).mpr (allPairsResults_mono h patterns r hr')
  · intro r hr
    have hr' := (mem_sortByKeyDesc (fun r : CompareResult => r.similarity.total)).mp hr
    exact (mem_sortByKeyDesc _).mpr (compareResultsUnsorted_mono h patterns cand hr')

/-- Witness for C9: the theorem applied at thresholds `1/2 ≤ 7/10` on a
concrete corpus. -/
theorem C9_witness :
    ((1 : ℚ) / 2 ≤ 7 / 10) ∧
      check_all_similarities ⟨[witDoc1, witDoc2], 7 / 10⟩ ⊆
        check_all_similarities ⟨[witDoc1, witDoc2], 1 / 2⟩ :=
  ⟨by norm_num, (C9_threshold_monotone [witDoc1, witDoc2] witDoc1 (by norm_num)).1⟩

end PatternSim
